/-
Verification of the AuiTrack course-placement engine.

This file gives a shallow embedding, in Lean 4, of the degree-plan store
logic of the repository (the Zustand store: `addCourse`, `removeCourse`,
`resetPlan`) and of the automatic plan generator (`generateDegreePlan`),
and proves or refutes the specification's claims about them.

Conventions of the embedding:
  * TypeScript strings are `String`, numbers are `Int` (all the arithmetic
    the engine performs is integral), arrays are `List`.
  * `parseInt` is modelled by `parseIntJS`, a base-10 leading-digits
    parser.  On strings with no leading digits JavaScript yields `NaN`;
    no claim involves such a credit string, and the model returns 0 there.
  * The store state keeps the four fields the source store mutates or
    reads in the modelled actions: `courseData`, `semesterPlans`, `error`,
    `userInfo`.  Each action is a pure function from state to state.
-/
import Mathlib

namespace AuiTrack

/-- Semester type: `'regular' | 'summer'`. -/
inductive SemesterType where
  | regular
  | summer
deriving DecidableEq, Repr, Inhabited

/-- A prerequisite entry `{ type, value }`. -/
structure Prerequisite where
  type : String
  value : String
deriving DecidableEq, Repr, Inhabited

/-- A catalog course as stored by the planner store (credits kept as the
source keeps them: a string, parsed with `parseInt` at use sites).
The `sections` field of the source is never read by the modelled actions
and is omitted. -/
structure Course where
  course_code : String
  course_name : String
  credits : String
  prerequisites : List (List Prerequisite)
  corequisites : List String
deriving DecidableEq, Repr, Inhabited

/-- One semester of the plan. -/
structure SemesterPlan where
  semester : String
  type : SemesterType
  courses : List Course
  credits : Int
deriving DecidableEq, Repr, Inhabited

/-- Student information, read by `resetPlan`. -/
structure UserInfo where
  name : String
  studentId : String
  major : String
  startSemester : String
  startYear : Int
  endSemester : String
  endYear : Int
  totalCreditsToGraduate : Int
deriving DecidableEq, Repr, Inhabited

/-- The store state (the fields touched by the modelled actions). -/
structure DegreePlanState where
  courseData : Option (List Course)
  semesterPlans : List SemesterPlan
  error : Option String
  userInfo : Option UserInfo
deriving DecidableEq, Repr, Inhabited

/-- Value of a decimal digit, `none` for a non-digit character. -/
def digitVal (c : Char) : Option Nat :=
  if '0' ≤ c ∧ c ≤ '9' then some (c.toNat - '0'.toNat) else none

/-- Accumulate the value of the leading run of decimal digits. -/
def digitsValAux : List Char → Nat → Nat
  | [], acc => acc
  | c :: cs, acc =>
    match digitVal c with
    | some d => digitsValAux cs (acc * 10 + d)
    | none => acc

/-- Model of JavaScript `parseInt` on the strings the engine feeds it:
optional leading whitespace, optional sign, then leading decimal digits.
(JavaScript yields `NaN` when no digit is present; the model yields 0,
and no claim exercises that case.) -/
def parseIntJS (s : String) : Int :=
  let chars := s.data.dropWhile (fun c => c = ' ' ∨ c = '\t' ∨ c = '\n' ∨ c = '\r')
  match chars with
  | '-' :: rest => - (digitsValAux rest 0 : Int)
  | '+' :: rest => (digitsValAux rest 0 : Int)
  | rest => (digitsValAux rest 0 : Int)

/-- `normalizeCourseCode`: drop whitespace and hyphens, uppercase
(`code.replace(/[\s-]+/g, '').toUpperCase()`). -/
def normalizeCourseCode (code : String) : String :=
  String.mk ((code.data.filter
    (fun c => ¬ (c = ' ' ∨ c = '\t' ∨ c = '\n' ∨ c = '\r' ∨ c = '-'))).map Char.toUpper)

-- Credit limits (source constants).
def REGULAR_SEMESTER_CREDIT_LIMIT : Int := 22
def SUMMER_SEMESTER_CREDIT_LIMIT : Int := 10

/-- `semesterPlans.find(plan => plan.semester === semester)`. -/
def findPlan (plans : List SemesterPlan) (semester : String) : Option SemesterPlan :=
  plans.find? (fun plan => plan.semester = semester)

/-- `Array.prototype.findIndex`, as an `Option Nat` (the source compares
the result with `-1`; `none` models `-1`). -/
def findIndexJS (p : α → Bool) : List α → Option Nat
  | [] => none
  | a :: as => if p a then some 0 else (findIndexJS p as).map (· + 1)

/-- The duplicate-in-semester check:
`semesterPlan.courses.some(c => c.course_code === course.course_code)`. -/
def dupInSemester (semesterPlan : SemesterPlan) (course : Course) : Bool :=
  semesterPlan.courses.any (fun c => c.course_code = course.course_code)

/-- The duplicate-elsewhere check:
`semesterPlans.some(plan => plan.semester !== semester && plan.courses.some(...))`. -/
def existsInOtherSemester (plans : List SemesterPlan) (semester : String)
    (course : Course) : Bool :=
  plans.any (fun plan => plan.semester ≠ semester &&
    plan.courses.any (fun c => c.course_code = course.course_code))

/-- The courses gathered by the `for (const plan of semesterPlans)` loop
that pushes every course of every plan before the first plan named
`semester` (and breaks there). -/
def previousSemestersCourses : List SemesterPlan → String → List Course
  | [], _ => []
  | plan :: rest, semester =>
    if plan.semester = semester then []
    else plan.courses ++ previousSemestersCourses rest semester

/-- One OR-group of prerequisites is satisfied when some alternative's
normalized code matches the normalized code of a previously placed
course. -/
def prereqGroupSatisfied (previousSemesters : List Course)
    (group : List Prerequisite) : Bool :=
  group.any (fun prereq =>
    previousSemesters.any (fun c =>
      normalizeCourseCode c.course_code = normalizeCourseCode prereq.value))

/-- `course.prerequisites.every(group => group.length === 0 || group.some(...))`:
every AND-conjunct is an empty group or has a satisfied alternative. -/
def prerequisitesSatisfied (previousSemesters : List Course)
    (prerequisites : List (List Prerequisite)) : Bool :=
  prerequisites.all (fun group =>
    group.isEmpty || prereqGroupSatisfied previousSemesters group)

/-- The special-case test of `addCourse`: the course is `"CSC 2302"` and a
course normalizing to `CSC1401` sits in an earlier semester. -/
def csc2302Bypass (course : Course) (previousSemesters : List Course) : Bool :=
  course.course_code = "CSC 2302" &&
    previousSemesters.any (fun c =>
      normalizeCourseCode c.course_code = normalizeCourseCode "CSC1401")

/-- The successful mutation of `addCourse`: map over the plans, appending
the course and adding its credits to every plan named `semester`. -/
def appendCourse (plans : List SemesterPlan) (semester : String)
    (course : Course) : List SemesterPlan :=
  plans.map (fun plan =>
    if plan.semester = semester then
      { plan with
        courses := plan.courses ++ [course],
        credits := plan.credits + parseIntJS course.credits }
    else plan)

/-- The store action `addCourse(semester, course)`, translated branch for
branch from the source (duplicate-in-semester, duplicate-elsewhere,
credit limit, CSC 2302 special case, prerequisite check, mutation). -/
def addCourse (st : DegreePlanState) (semester : String) (course : Course) :
    DegreePlanState :=
  match findPlan st.semesterPlans semester with
  | none => st
  | some semesterPlan =>
    if dupInSemester semesterPlan course then
      { st with error := some (course.course_code ++ " is already in " ++ semester) }
    else if existsInOtherSemester st.semesterPlans semester course then
      { st with error := some (course.course_code ++ " is already in another semester") }
    else
      let creditLimit : Int := if semesterPlan.type = SemesterType.summer then 10 else 22
      let newCredits := semesterPlan.credits + parseIntJS course.credits
      if newCredits > creditLimit then
        { st with error := some ("Adding " ++ course.course_code ++
              " would exceed the credit limit for " ++ semester) }
      else if course.prerequisites.length > 0 then
        let previousSemesters := previousSemestersCourses st.semesterPlans semester
        if csc2302Bypass course previousSemesters then
          { st with
            semesterPlans := appendCourse st.semesterPlans semester course,
            error := none }
        else if prerequisitesSatisfied previousSemesters course.prerequisites then
          { st with
            semesterPlans := appendCourse st.semesterPlans semester course,
            error := none }
        else
          { st with error := some ("Prerequisites for " ++ course.course_code ++
              " are not satisfied") }
      else
        { st with
          semesterPlans := appendCourse st.semesterPlans semester course,
          error := none }

/-- Inner loop of `removeCourse`'s dependent scan: the first course of the
list one of whose prerequisite groups contains `courseCode` as a raw
`prereq.value`, returned by course code. -/
def findDependentInCourses (courseCode : String) : List Course → Option String
  | [] => none
  | c :: cs =>
    if c.prerequisites.any (fun group => group.any (fun prereq => prereq.value = courseCode)) then
      some c.course_code
    else findDependentInCourses courseCode cs

/-- Outer loop of the dependent scan over the semesters after the one the
course is removed from. -/
def findDependent (courseCode : String) : List SemesterPlan → Option String
  | [] => none
  | plan :: rest =>
    match findDependentInCourses courseCode plan.courses with
    | some d => some d
    | none => findDependent courseCode rest

/-- The store action `removeCourse(semester, courseCode)`, translated
branch for branch from the source. -/
def removeCourse (st : DegreePlanState) (semester : String) (courseCode : String) :
    DegreePlanState :=
  match findIndexJS (fun plan => plan.semester = semester) st.semesterPlans with
  | none => st
  | some semesterIndex =>
    let plan := st.semesterPlans.getD semesterIndex default
    match findIndexJS (fun c => c.course_code = courseCode) plan.courses with
    | none => st
    | some courseIndex =>
      let course := plan.courses.getD courseIndex default
      match findDependent courseCode (st.semesterPlans.drop (semesterIndex + 1)) with
      | some dependentCourse =>
        { st with error := some ("Cannot remove " ++ courseCode ++
              " because it's a prerequisite for " ++ dependentCourse) }
      | none =>
        { st with
          semesterPlans := st.semesterPlans.set semesterIndex
            { plan with
              courses := plan.courses.filter (fun c => c.course_code ≠ courseCode),
              credits := plan.credits - parseIntJS course.credits },
          error := none }

/-- The default twelve-semester plan `resetPlan` installs when no user
info is present. -/
def defaultTwelvePlans : List SemesterPlan :=
  [ ⟨"Fall 2024", SemesterType.regular, [], 0⟩,
    ⟨"Spring 2025", SemesterType.regular, [], 0⟩,
    ⟨"Summer 2025", SemesterType.summer, [], 0⟩,
    ⟨"Fall 2025", SemesterType.regular, [], 0⟩,
    ⟨"Spring 2026", SemesterType.regular, [], 0⟩,
    ⟨"Summer 2026", SemesterType.summer, [], 0⟩,
    ⟨"Fall 2026", SemesterType.regular, [], 0⟩,
    ⟨"Spring 2027", SemesterType.regular, [], 0⟩,
    ⟨"Summer 2027", SemesterType.summer, [], 0⟩,
    ⟨"Fall 2027", SemesterType.regular, [], 0⟩,
    ⟨"Spring 2028", SemesterType.regular, [], 0⟩,
    ⟨"Summer 2028", SemesterType.summer, [], 0⟩ ]

/-- The three-semester plan `resetPlan` installs when the start term is
not a recognized term (the `startSemesterIndex === -1` branch). -/
def defaultThreePlans : List SemesterPlan :=
  [ ⟨"Fall 2024", SemesterType.regular, [], 0⟩,
    ⟨"Spring 2025", SemesterType.regular, [], 0⟩,
    ⟨"Summer 2025", SemesterType.summer, [], 0⟩ ]

/-- `const semesterOrder = ['Fall', 'Spring', 'Summer']`. -/
def semesterOrder : List String := ["Fall", "Spring", "Summer"]

/-- `Array.prototype.indexOf`, returning `-1` when absent, as in the
source. -/
def indexOfJS (l : List String) (s : String) : Int :=
  match findIndexJS (fun x => x = s) l with
  | none => -1
  | some i => (i : Int)

/-- The semester-generation `while` loop of `resetPlan`, with explicit
fuel.  Each iteration emits one semester and advances along the
Fall → Spring → Summer cycle, incrementing the year after Summer; the
guard forces `currentYear ≤ endYear`, so the fuel `resetPlan` supplies
(three per year of the range, plus slack) is never exhausted. -/
def resetLoop : Nat → Int → String → Int → String → List SemesterPlan
  | 0, _, _, _, _ => []
  | fuel + 1, currentYear, currentSemester, endYear, endSemester =>
    if currentYear < endYear ∨
        (currentYear = endYear ∧
          indexOfJS semesterOrder currentSemester ≤ indexOfJS semesterOrder endSemester) then
      let displayYear := if currentSemester = "Fall" then currentYear else currentYear + 1
      let nextSemesterIndex := ((indexOfJS semesterOrder currentSemester + 1) % 3).toNat
      let nextSemester := semesterOrder.getD nextSemesterIndex ""
      { semester := currentSemester ++ " " ++ toString displayYear,
        type := if currentSemester = "Summer" then SemesterType.summer else SemesterType.regular,
        courses := [], credits := 0 }
        :: resetLoop fuel (if nextSemesterIndex = 0 then currentYear + 1 else currentYear)
             nextSemester endYear endSemester
    else []

/-- The store action `resetPlan()`: no user info installs the default
twelve semesters; an unrecognized start term installs the default three
semesters (the source's comment: `Invalid semester, use default`); a
recognized start term generates the inclusive start-to-end sequence. -/
def resetPlan (st : DegreePlanState) : DegreePlanState :=
  match st.userInfo with
  | none => { st with semesterPlans := defaultTwelvePlans, error := none }
  | some userInfo =>
    if indexOfJS semesterOrder userInfo.startSemester = -1 then
      { st with semesterPlans := defaultThreePlans, error := none }
    else
      { st with
        semesterPlans :=
          resetLoop (3 * ((userInfo.endYear - userInfo.startYear).toNat + 2))
            userInfo.startYear userInfo.startSemester userInfo.endYear userInfo.endSemester,
        error := none }

/-! ## The plan generator (`generateDegreePlan`)

The generator works over catalog courses of the shape the data files feed
it: `{ code, name, credits : number, prerequisites : string[] }`, the
general-education table adding `category` and `required`.  Fields the
algorithm never reads (`semester`, `description`, the `options` lists of
the category table, and the `isPlaceholder`/`type` decorations added to
general-education entries) are omitted. -/

/-- A course as consumed by `generateDegreePlan`. -/
structure GenCourse where
  code : String
  name : String
  credits : Int
  prerequisites : List String
  category : Option String
  required : Bool
deriving DecidableEq, Repr, Inhabited

/-- `MajorRequirements` (the fields the generator reads). -/
structure MajorRequirements where
  name : String
  code : String
  school : String
  totalCredits : Int
  courses : List GenCourse
deriving DecidableEq, Repr, Inhabited

/-- `DegreePlanOptions`. -/
structure DegreePlanOptions where
  includeSummer : Bool
  summerTerms : Int
  transferCredits : List GenCourse
  specializations : List String
deriving DecidableEq, Repr, Inhabited

/-- One generated semester record. -/
structure GenSemester where
  semester : Nat
  courses : List GenCourse
  credits : Int
  type : SemesterType
deriving DecidableEq, Repr, Inhabited

/-- Shorthand for a general-education table entry. -/
def geCourse (code name : String) (credits : Int) (prerequisites : List String)
    (category : String) (required : Bool) : GenCourse :=
  ⟨code, name, credits, prerequisites, some category, required⟩

/-- `GENERAL_EDUCATION_COURSES`. -/
def GENERAL_EDUCATION_COURSES : List GenCourse :=
  [ geCourse "FYE 1101" "FYE Seminar I" 1 [] "Foundation" true,
    geCourse "FAS 0210" "Strategic Academic Skills" 2 [] "Foundation" true,
    geCourse "FYE 1102" "FYE Seminar II" 1 ["FYE 1101"] "Foundation" true,
    geCourse "FAS 1220" "Introduction to Critical Thinking" 2 [] "Foundation" true,
    geCourse "ENG 1301" "English Composition I" 3 [] "English" true,
    geCourse "ENG 2303" "Technical Writing" 3 ["ENG 1301"] "English" true,
    geCourse "ENG 2320" "Creative Writing" 3 ["ENG 1301"] "English" false,
    geCourse "COM 1301" "Public Speaking" 3 [] "Communication" true,
    geCourse "ARA 1201" "Arabic Language Course" 2 [] "Arabic" false,
    geCourse "ARA 1202" "Arabic Language Course" 2 [] "Arabic" false,
    geCourse "ARA 1203" "Arabic Language Course" 2 [] "Arabic" false,
    geCourse "ARA 3299" "Arabic Language Course" 2 [] "Arabic" false,
    geCourse "ARB 1201" "Arabic Language Course" 2 [] "Arabic" false,
    geCourse "ARB 1202" "Arabic Language Course" 2 [] "Arabic" false,
    geCourse "ARB 1203" "Arabic Language Course" 2 [] "Arabic" false,
    geCourse "ARB 1241" "Arabic Language Course" 2 [] "Arabic" false,
    geCourse "HUM 2305" "Humanities Course" 3 [] "Humanities" false,
    geCourse "HUM 2306" "Humanities Course" 3 [] "Humanities" false,
    geCourse "HUM 2307" "Humanities Course" 3 [] "Humanities" false,
    geCourse "LIT 2301" "Literature Course" 3 ["ENG 1301"] "Humanities" false,
    geCourse "PHI 2301" "Philosophy Course" 3 ["ENG 1301"] "Humanities" false,
    geCourse "PHI 2302" "Philosophy Course" 3 ["ENG 1301"] "Humanities" false,
    geCourse "HUM 2301" "Islamic Art & Architecture" 3 ["FAS 1220"] "Humanities" false,
    geCourse "FRN 3210" "French Language Course" 2 [] "French" true,
    geCourse "ART 1301" "Art Course" 3 ["FYE 1101"] "Art" false,
    geCourse "ART 1302" "Art Course" 3 ["FYE 1101"] "Art" false,
    geCourse "ART 1303" "Art Course" 3 ["FYE 1101"] "Art" false,
    geCourse "ART 1304" "Art Course" 3 ["FYE 1101"] "Art" false,
    geCourse "ART 1305" "Art Course" 3 ["FYE 1101"] "Art" false,
    geCourse "ART 3399" "Art Course" 3 ["FYE 1101"] "Art" false,
    geCourse "COM 2327" "Communication Arts" 3 ["FYE 1101"] "Art" false,
    geCourse "LIT 3370" "Literature & Arts" 3 ["FYE 1101"] "Art" false,
    geCourse "HIS 1301" "History Course" 3 [] "History" false,
    geCourse "HIS 2301" "History Course" 3 [] "History" false,
    geCourse "HUM 1310" "Humanities & History" 3 [] "History" false,
    geCourse "HUM 2302" "Humanities & History" 3 [] "History" false,
    geCourse "PSC 2301" "History/Political Science" 3 ["ENG 1301"] "History" false,
    geCourse "ECO 1300" "Economics Course" 3 [] "Social" false,
    geCourse "GEO 1301" "Geography Course" 3 [] "Social" false,
    geCourse "PSY 1301" "Psychology Course" 3 [] "Social" false,
    geCourse "SOC 1301" "Sociology Course" 3 [] "Social" false,
    geCourse "SSC 1310" "Social Science Course" 3 [] "Social" false,
    geCourse "SLP 1101" "Service Learning" 3 [] "Civic" true ]

/-- `GE_CATEGORIES`, reduced to the two fields the generator reads of
each category: its display `name` and its `credits` minimum. -/
def GE_CATEGORIES : List (String × Int) :=
  [ ("First Year & Foundation Courses", 6),
    ("English Requirements", 6),
    ("Arabic Language Requirement", 2),
    ("Communication", 3),
    ("Humanities", 3),
    ("French Language", 2),
    ("Art Appreciation & Creation", 3),
    ("History or Political Science", 3),
    ("Social Sciences", 3),
    ("Civic Engagement", 3) ]

/-- `code.replace(/\s/g, '')`. -/
def stripSpaces (s : String) : String :=
  String.mk (s.data.filter (fun c => ¬ (c = ' ' ∨ c = '\t' ∨ c = '\n' ∨ c = '\r')))

/-- The `trackCourses` table of `isSpecializationCourse`. -/
def trackCourses (track : String) : Option (List String) :=
  if track = "ai" then some ["CSC3309", "CSC3347", "CSC3310", "CSC3311"]
  else if track = "bigdata" then some ["CSC3331", "CSC4352", "CSC3329", "CSC3346"]
  else if track = "systems" then some ["CSC3373", "CSC3328", "CSC3329", "CSC3331"]
  else if track = "software" then some ["CSC4307", "CSC4309", "CSC3357", "CSC3358"]
  else none

/-- `isSpecializationCourse(code, track)`:
`trackCourses[track]?.includes(code.replace(/\s/g, '')) || false`. -/
def isSpecializationCourse (code : String) (track : String) : Bool :=
  match trackCourses track with
  | some courses => courses.contains (stripSpaces code)
  | none => false

/-- The Technical Core area filter (`areas[0]`). -/
def technicalCoreCourses (requirements : MajorRequirements)
    (specializations : List String) : List GenCourse :=
  requirements.courses.filter (fun c =>
    c.code.startsWith "MTH" || c.code.startsWith "PHY" || c.code.startsWith "CHE" ||
    c.code.startsWith "EGR" || c.code.startsWith "ACC" || c.code.startsWith "FIN" ||
    c.code.startsWith "MGT" ||
    (c.code.startsWith "CSC" &&
      !(specializations.any (fun spec => isSpecializationCourse c.code spec))))

/-- The Specialization area filter (`areas[2]`). -/
def specializationAreaCourses (requirements : MajorRequirements)
    (specializations : List String) : List GenCourse :=
  requirements.courses.filter (fun c =>
    specializations.any (fun spec => isSpecializationCourse c.code spec))

/-- Lookup in the `prerequisiteMap`.  `Map.set` overwrites, so the entry
that survives for a code is the last one written while traversing the
areas in order; hence the lookup searches the reversed concatenation. -/
def prereqMapLookup (allAreaCourses : List GenCourse) (code : String) :
    Option (List String) :=
  (allAreaCourses.reverse.find? (fun c => c.code = code)).map (fun c => c.prerequisites)

/-- `arePrerequisitesMet(course)`: courses absent from the map or with an
empty prerequisite set pass; otherwise every prerequisite must already be
taken. -/
def arePrerequisitesMet (allAreaCourses : List GenCourse) (takenCourses : List String)
    (course : GenCourse) : Bool :=
  match prereqMapLookup allAreaCourses course.code with
  | none => true
  | some prerequisites =>
    prerequisites.isEmpty || prerequisites.all (fun prereq => takenCourses.contains prereq)

/-- The fixed `firstSemesterCourses`. -/
def firstSemesterCourses : List GenCourse :=
  [ ⟨"ARB 1241", "Arabic Literature", 2, [], none, false⟩,
    ⟨"CSC 1401", "Computer Programming + LAB", 4, [], none, false⟩,
    ⟨"ENG 1301", "English Composition", 3, [], none, false⟩,
    ⟨"FAS 0210", "Strategic Academic Skills", 2, [], none, false⟩,
    ⟨"FYE 1101", "FYE Seminar I", 1, [], none, false⟩,
    ⟨"MTH 1303", "Calculus I", 3, [], none, false⟩ ]

/-- Add `amount` to one key of the category-credit record. -/
def bumpCat (f : String → Int) (key : String) (amount : Int) : String → Int :=
  fun k => if k = key then f k + amount else f k

/-- `c.category === 'Foundation'` (for the required-course comparator). -/
def isFoundationCat (c : GenCourse) : Bool := c.category = some "Foundation"

/-- The required-course ordering of `getAvailableGenEdCourses`: a stable
sort under the comparator that puts Foundation-category courses first is
exactly the stable partition Foundation-first. -/
def sortFoundationFirst (l : List GenCourse) : List GenCourse :=
  l.filter isFoundationCat ++ l.filter (fun c => ¬ isFoundationCat c)

/-- JavaScript `<` against a possibly-`undefined` right operand
(`x < undefined` is `false`). -/
def jsLtOpt (a : Int) : Option Int → Bool
  | some b => a < b
  | none => false

/-- `getAvailableGenEdCourses(maxCourses)`: required general-education
courses first (Foundation-category ones leading), then, if slots remain,
electives whose category minimum (looked up by category *name* in
`GE_CATEGORIES`, which matches only for Communication and Humanities) is
not yet reached. -/
def getAvailableGenEdCourses (geCourses allAreaCourses : List GenCourse)
    (takenCourses : List String) (categoryCredits : String → Int)
    (maxCourses : Nat) : List GenCourse :=
  let requiredCourses := sortFoundationFirst (geCourses.filter (fun c =>
    c.required && !(takenCourses.contains c.code) &&
      arePrerequisitesMet allAreaCourses takenCourses c))
  let availableCourses := requiredCourses.take maxCourses
  if availableCourses.length < maxCourses then
    let remainingSlots := maxCourses - availableCourses.length
    let electiveCourses := (geCourses.filter (fun c =>
      !c.required && !(takenCourses.contains c.code) &&
        arePrerequisitesMet allAreaCourses takenCourses c &&
        jsLtOpt (categoryCredits (c.category.getD ""))
          ((GE_CATEGORIES.find? (fun cat => cat.1 = c.category.getD "")).map
            (fun cat => cat.2)))).take remainingSlots
    availableCourses ++ electiveCourses
  else availableCourses

/-- The per-semester `while` loop of `generateDegreePlan`, on explicit
fuel (the loop visits semester positions 2..12, so fuel 11 suffices).
Carries the mutable locals: current semester position, cumulative
credits, remaining summer terms, taken-course set, category credits. -/
def genLoop (allAreaCourses techCourses geCourses specCourses : List GenCourse)
    (totalRequired : Int) (includeSummer : Bool) :
    Nat → Nat → Int → Int → List String → (String → Int) → List GenSemester
  | 0, _, _, _, _, _ => []
  | fuel + 1, currentSemester, totalCredits, remainingSummerTerms, takenCourses,
      categoryCredits =>
    if currentSemester ≤ 12 ∧ totalCredits < totalRequired then
      let isSummer := currentSemester % 3 = 0
      let semesterCourses :=
        if ¬ isSummer then
          let technicalCourses := ((techCourses ++ specCourses).filter (fun c =>
            !(takenCourses.contains c.code) &&
              arePrerequisitesMet allAreaCourses takenCourses c)).take 3
          let genEdCourses :=
            getAvailableGenEdCourses geCourses allAreaCourses takenCourses categoryCredits 3
          technicalCourses ++ genEdCourses
        else if includeSummer ∧ remainingSummerTerms > 0 then
          let genEdCourses :=
            getAvailableGenEdCourses geCourses allAreaCourses takenCourses categoryCredits 2
          let lightTechnicalCourses := (techCourses.filter (fun c =>
            !(takenCourses.contains c.code) &&
              arePrerequisitesMet allAreaCourses takenCourses c &&
              c.credits ≤ 3 && !(c.code.startsWith "CSC"))).take 1
          genEdCourses ++ lightTechnicalCourses
        else []
      let remainingSummerTerms' :=
        if isSummer ∧ includeSummer ∧ remainingSummerTerms > 0 then
          remainingSummerTerms - 1
        else remainingSummerTerms
      if semesterCourses.isEmpty then
        genLoop allAreaCourses techCourses geCourses specCourses totalRequired
          includeSummer fuel (currentSemester + 1) totalCredits remainingSummerTerms'
          takenCourses categoryCredits
      else
        let takenCourses' := takenCourses ++ semesterCourses.map (fun c => c.code)
        let categoryCredits' := semesterCourses.foldl (fun f c =>
          match c.category with
          | some cat => bumpCat f cat c.credits
          | none => f) categoryCredits
        let semesterCredits := (semesterCourses.map (fun c => c.credits)).sum
        { semester := currentSemester, courses := semesterCourses,
          credits := semesterCredits,
          type := if isSummer then SemesterType.summer else SemesterType.regular }
          :: genLoop allAreaCourses techCourses geCourses specCourses totalRequired
               includeSummer fuel (currentSemester + 1) (totalCredits + semesterCredits)
               remainingSummerTerms' takenCourses' categoryCredits'
    else []

/-- `generateDegreePlan(requirements, options)`.  (`transferCredits` is
destructured from the options in the source but never used.) -/
def generateDegreePlan (requirements : MajorRequirements)
    (options : DegreePlanOptions) : List GenSemester :=
  let specializations := options.specializations
  let techAll := technicalCoreCourses requirements specializations
  let geAll := GENERAL_EDUCATION_COURSES
  let specAll := specializationAreaCourses requirements specializations
  let allAreaCourses := techAll ++ geAll ++ specAll
  let firstSemesterCredits := (firstSemesterCourses.map (fun c => c.credits)).sum
  let firstPlan : GenSemester :=
    ⟨1, firstSemesterCourses, firstSemesterCredits, SemesterType.regular⟩
  let takenCourses := firstSemesterCourses.map (fun c => c.code)
  let categoryCredits := firstSemesterCourses.foldl (fun f c =>
    if c.code.startsWith "FAS" || c.code.startsWith "FYE" then
      bumpCat f "Foundation" c.credits
    else if c.code.startsWith "ENG" then bumpCat f "English" c.credits
    else if c.code.startsWith "ARB" then bumpCat f "Arabic" c.credits
    else f) (fun _ => 0)
  let techCourses := techAll.filter (fun c => !(takenCourses.contains c.code))
  let geCourses := geAll.filter (fun c => !(takenCourses.contains c.code))
  let specCourses := specAll.filter (fun c => !(takenCourses.contains c.code))
  firstPlan :: genLoop allAreaCourses techCourses geCourses specCourses
    requirements.totalCredits options.includeSummer 11 2 firstSemesterCredits
    options.summerTerms takenCourses categoryCredits

/-! ## Concrete fixtures

Small courses and ledgers used by the concrete scenarios, witnesses and
counterexamples below. -/

/-- A 3-credit course `A` with no prerequisites. -/
def courseA : Course := ⟨"A", "Course A", "3", [], []⟩

/-- A 3-credit course `A2` with no prerequisites. -/
def courseA2 : Course := ⟨"A2", "Course A2", "3", [], []⟩

/-- A 3-credit course `B` whose prerequisite is `A`. -/
def courseB : Course := ⟨"B", "Course B", "3", [[⟨"course", "A"⟩]], []⟩

/-- A 3-credit course `B` whose prerequisite is the OR-group `A` or `A2`. -/
def courseBor : Course := ⟨"B", "Course B", "3", [[⟨"course", "A"⟩, ⟨"course", "A2"⟩]], []⟩

/-- Ledger: `A` placed in `S1`, `S2` empty. -/
def stateAB : DegreePlanState :=
  ⟨none, [⟨"S1", SemesterType.regular, [courseA], 3⟩,
          ⟨"S2", SemesterType.regular, [], 0⟩], none, none⟩

/-- Ledger: `A` in `S1`, `B` (prerequisite `A`) in `S2`. -/
def stateABPlaced : DegreePlanState :=
  ⟨none, [⟨"S1", SemesterType.regular, [courseA], 3⟩,
          ⟨"S2", SemesterType.regular, [courseB], 3⟩], none, none⟩

/-- Ledger: `A` and `A2` in `S1`, `B` (prerequisite `A` or `A2`) in `S2`. -/
def stateOr : DegreePlanState :=
  ⟨none, [⟨"S1", SemesterType.regular, [courseA, courseA2], 6⟩,
          ⟨"S2", SemesterType.regular, [courseBor], 3⟩], none, none⟩

/-- `CSC 1401` as a 4-credit course with no prerequisites. -/
def csc1401 : Course := ⟨"CSC 1401", "Computer Programming", "4", [], []⟩

/-- A course coded `CSC 2302` whose recorded prerequisite (`MTH 9999`)
is nowhere placed. -/
def csc2302Unmet : Course := ⟨"CSC 2302", "Data Structures", "3", [[⟨"course", "MTH 9999"⟩]], []⟩

/-- The spelling `csc-1401`, normalizing to the same code as `CSC 1401`. -/
def csc1401Hyphen : Course := ⟨"csc-1401", "Computer Programming", "4", [], []⟩

/-- Ledger: `CSC 1401` placed in Fall 2024, Spring 2025 empty. -/
def stateCsc : DegreePlanState :=
  ⟨none, [⟨"Fall 2024", SemesterType.regular, [csc1401], 4⟩,
          ⟨"Spring 2025", SemesterType.regular, [], 0⟩], none, none⟩

/-- A 3-credit course `C` with no prerequisites. -/
def courseC : Course := ⟨"C", "Course C", "3", [], []⟩

/-- Ledger with a regular semester already at 19 credits and a summer
semester already at 7 credits. -/
def stateNearCap : DegreePlanState :=
  ⟨none, [⟨"R", SemesterType.regular, [], 19⟩,
          ⟨"Su", SemesterType.summer, [], 7⟩], none, none⟩

/-- Ledger with a regular semester already at 20 credits and a summer
semester already at 8 credits. -/
def stateOverCap : DegreePlanState :=
  ⟨none, [⟨"R", SemesterType.regular, [], 20⟩,
          ⟨"Su", SemesterType.summer, [], 8⟩], none, none⟩

/-- A state carrying a stale error message, used to observe that the
unknown-semester path does not even clear the error. -/
def stateStale : DegreePlanState :=
  ⟨none, [⟨"S1", SemesterType.regular, [courseA], 3⟩], some "stale error", none⟩

/-- User info whose start term `Winter` is not a recognized term. -/
def winterInfo : UserInfo := ⟨"N", "123", "CS", "Winter", 2024, "Spring", 2028, 134⟩

/-- A state carrying the invalid `winterInfo`. -/
def stateWinter : DegreePlanState := ⟨none, [], some "stale error", some winterInfo⟩

/-- An all-empty two-semester ledger. -/
def stateEmptyTwo : DegreePlanState :=
  ⟨none, [⟨"S1", SemesterType.regular, [], 0⟩,
          ⟨"S2", SemesterType.regular, [], 0⟩], none, none⟩

/-- The sequence of store operations a session performs
(for the reachable-state invariants). -/
inductive PlanOp where
  | add (semester : String) (course : Course)
  | remove (semester : String) (courseCode : String)
deriving DecidableEq, Repr

/-- Apply one operation to the store state. -/
def applyOp (st : DegreePlanState) : PlanOp → DegreePlanState
  | PlanOp.add semester course => addCourse st semester course
  | PlanOp.remove semester courseCode => removeCourse st semester courseCode

/-- Run a sequence of operations. -/
def runOps (st : DegreePlanState) : List PlanOp → DegreePlanState
  | [] => st
  | op :: ops => runOps (applyOp st op) ops

/-- All course codes placed anywhere in the ledger, in order. -/
def ledgerCodes (plans : List SemesterPlan) : List String :=
  (plans.map (fun p => p.courses.map (fun c => c.course_code))).flatten

/-- Every semester's stored credit total equals the sum of the parsed
credit values of its placed courses. -/
def creditsOk (plans : List SemesterPlan) : Prop :=
  ∀ p ∈ plans, p.credits = (p.courses.map (fun c => parseIntJS c.credits)).sum

/-- No course code appears in two different semesters of the ledger. -/
def semestersCodeDisjoint (plans : List SemesterPlan) : Prop :=
  plans.Pairwise (fun p q => ∀ code, code ∈ p.courses.map (fun c => c.course_code) →
    code ∉ q.courses.map (fun c => c.course_code))

/-- The inductive strengthening: distinct semester names, globally
duplicate-free course codes, correct credit totals. -/
def StrongInv (plans : List SemesterPlan) : Prop :=
  (plans.map (fun p => p.semester)).Nodup ∧ (ledgerCodes plans).Nodup ∧ creditsOk plans

/-! ## Helper lemmas -/

theorem findIndexJS_eq_none_iff (p : α → Bool) (l : List α) :
    findIndexJS p l = none ↔ ∀ a ∈ l, p a = false := by
  induction l with
  | nil => simp [findIndexJS]
  | cons a as ih =>
    by_cases h : p a
    · simp [findIndexJS, h]
    · simp [findIndexJS, h, ih]

theorem indexOfJS_eq_neg_one_of_not_mem (l : List String) (s : String) (h : s ∉ l) :
    indexOfJS l s = -1 := by
  unfold indexOfJS
  have hnone : findIndexJS (fun x => x = s) l = none := by
    rw [findIndexJS_eq_none_iff]
    intro a ha
    simp only [decide_eq_false_iff_not]
    rintro rfl
    exact h ha
  rw [hnone]

/-- Every run of `addCourse` is a no-op (semester not found), an
error-report (plans untouched, an error recorded), or the successful
mutation, the latter only with both duplicate checks clean. -/
theorem addCourse_shape (st : DegreePlanState) (semester : String) (course : Course) :
    (findPlan st.semesterPlans semester = none ∧ addCourse st semester course = st)
    ∨ (∃ msg, addCourse st semester course = { st with error := some msg })
    ∨ (∃ plan, findPlan st.semesterPlans semester = some plan ∧
        dupInSemester plan course = false ∧
        existsInOtherSemester st.semesterPlans semester course = false ∧
        addCourse st semester course =
          { st with semesterPlans := appendCourse st.semesterPlans semester course,
                    error := none }) := by
  unfold addCourse
  cases h : findPlan st.semesterPlans semester with
  | none => exact Or.inl ⟨rfl, rfl⟩
  | some plan =>
    dsimp only
    by_cases h1 : dupInSemester plan course
    · rw [if_pos h1]
      exact Or.inr (Or.inl ⟨_, rfl⟩)
    · by_cases h2 : existsInOtherSemester st.semesterPlans semester course
      · rw [if_neg h1, if_pos h2]
        exact Or.inr (Or.inl ⟨_, rfl⟩)
      · rw [if_neg h1, if_neg h2]
        split_ifs
        all_goals first
          | exact Or.inr (Or.inl ⟨_, rfl⟩)
          | exact Or.inr (Or.inr ⟨plan, rfl, Bool.eq_false_iff.mpr h1,
              Bool.eq_false_iff.mpr h2, rfl⟩)

/-- Every run of `removeCourse` is a no-op, an error-report, or the
successful removal at the found semester and course indices. -/
theorem removeCourse_shape (st : DegreePlanState) (semester courseCode : String) :
    (removeCourse st semester courseCode = st)
    ∨ (∃ msg, removeCourse st semester courseCode = { st with error := some msg })
    ∨ (∃ i ci, findIndexJS (fun p => p.semester = semester) st.semesterPlans = some i ∧
        findIndexJS (fun c => c.course_code = courseCode)
          (st.semesterPlans.getD i default).courses = some ci ∧
        removeCourse st semester courseCode =
          { st with
            semesterPlans := st.semesterPlans.set i
              { st.semesterPlans.getD i default with
                courses := (st.semesterPlans.getD i default).courses.filter
                  (fun c => c.course_code ≠ courseCode),
                credits := (st.semesterPlans.getD i default).credits -
                  parseIntJS (((st.semesterPlans.getD i default).courses.getD ci
                    default).credits) },
            error := none }) := by
  unfold removeCourse
  cases h1 : findIndexJS (fun p => p.semester = semester) st.semesterPlans with
  | none => exact Or.inl rfl
  | some i =>
    dsimp only
    cases h2 : findIndexJS (fun c => c.course_code = courseCode)
        (st.semesterPlans.getD i default).courses with
    | none => exact Or.inl rfl
    | some ci =>
      dsimp only
      cases h3 : findDependent courseCode (st.semesterPlans.drop (i + 1)) with
      | some dep => exact Or.inr (Or.inl ⟨_, rfl⟩)
      | none => exact Or.inr (Or.inr ⟨i, ci, rfl, h2, rfl⟩)

/-! ## Claim theorems -/

/-- Claim C10: rejected mutations are atomic.  Whatever `addCourse` or
`removeCourse` does, either the semester plans are left completely
unchanged (no-ops and every rejection, which only set the error message)
or the operation succeeded and the error message was reset to `none`;
the catalog and the user info are never touched. -/
theorem rejected_mutations_atomic (st : DegreePlanState) (semester : String)
    (course : Course) (courseCode : String) :
    ((addCourse st semester course).semesterPlans = st.semesterPlans ∨
      (addCourse st semester course).error = none) ∧
    (addCourse st semester course).courseData = st.courseData ∧
    (addCourse st semester course).userInfo = st.userInfo ∧
    ((removeCourse st semester courseCode).semesterPlans = st.semesterPlans ∨
      (removeCourse st semester courseCode).error = none) ∧
    (removeCourse st semester courseCode).courseData = st.courseData ∧
    (removeCourse st semester courseCode).userInfo = st.userInfo := by
  refine ⟨?_, ?_, ?_, ?_, ?_, ?_⟩
  · rcases addCourse_shape st semester course with ⟨_, h⟩ | ⟨msg, h⟩ | ⟨plan, _, _, _, h⟩ <;>
      rw [h] <;> simp
  · rcases addCourse_shape st semester course with ⟨_, h⟩ | ⟨msg, h⟩ | ⟨plan, _, _, _, h⟩ <;>
      rw [h]
  · rcases addCourse_shape st semester course with ⟨_, h⟩ | ⟨msg, h⟩ | ⟨plan, _, _, _, h⟩ <;>
      rw [h]
  · rcases removeCourse_shape st semester courseCode with h | ⟨msg, h⟩ | ⟨i, ci, _, _, h⟩ <;>
      rw [h] <;> simp
  · rcases removeCourse_shape st semester courseCode with h | ⟨msg, h⟩ | ⟨i, ci, _, _, h⟩ <;>
      rw [h]
  · rcases removeCourse_shape st semester courseCode with h | ⟨msg, h⟩ | ⟨i, ci, _, _, h⟩ <;>
      rw [h]

/-- Claim C9 (counterexample): an unknown semester name is a *silent*
no-op, not a loud failure: on a state carrying a stale error message,
both operations return the state completely unchanged — the stale error
is not even replaced, and no defect is signalled. -/
theorem unknown_semester_counterexample :
    stateStale.error = some "stale error" ∧
    (∀ p ∈ stateStale.semesterPlans, p.semester ≠ "Nowhere") ∧
    addCourse stateStale "Nowhere" courseB = stateStale ∧
    removeCourse stateStale "Nowhere" "A" = stateStale := by
  refine ⟨rfl, ?_, by decide, by decide⟩
  decide

/-- Claim C9 (amended): referencing a semester name that is not in the
ledger makes `addCourse` and `removeCourse` silent no-ops — the state
comes back unchanged, the error field included; no exception channel
exists (both actions are total functions). -/
theorem unknown_semester_is_silent_noop (st : DegreePlanState) (semester : String)
    (course : Course) (courseCode : String)
    (h : ∀ p ∈ st.semesterPlans, p.semester ≠ semester) :
    addCourse st semester course = st ∧ removeCourse st semester courseCode = st := by
  have hf : findPlan st.semesterPlans semester = none := by
    unfold findPlan
    rw [List.find?_eq_none]
    intro p hp
    simp [h p hp]
  have hi : findIndexJS (fun p => p.semester = semester) st.semesterPlans = none := by
    rw [findIndexJS_eq_none_iff]
    intro p hp
    simp [h p hp]
  constructor
  · unfold addCourse
    rw [hf]
  · unfold removeCourse
    rw [hi]

/-- Claim C9 (witness). -/
theorem unknown_semester_is_silent_noop_witness :
    addCourse stateStale "S9" courseB = stateStale ∧
    removeCourse stateStale "S9" "A" = stateStale :=
  unknown_semester_is_silent_noop stateStale "S9" courseB "A" (by decide)

/-- Claim C7 (counterexample): with start term `Winter` — not one of the
three recognized terms — `resetPlan` silently installs the default
three-semester sequence and clears the error field; it reports nothing. -/
theorem resetPlan_invalid_term_counterexample :
    ("Winter" ∉ semesterOrder) ∧
    (resetPlan stateWinter).error = none ∧
    (resetPlan stateWinter).semesterPlans = defaultThreePlans := by
  refine ⟨by decide, by decide, by decide⟩

/-- Claim C7 (amended): when the start term is not one of the three
recognized terms, `resetPlan` does *not* report an error: it silently
substitutes the fixed default sequence Fall 2024, Spring 2025,
Summer 2025 and resets the error field to `none`. -/
theorem resetPlan_invalid_term_defaults (st : DegreePlanState) (info : UserInfo)
    (h1 : st.userInfo = some info) (h2 : info.startSemester ∉ semesterOrder) :
    resetPlan st = { st with semesterPlans := defaultThreePlans, error := none } := by
  unfold resetPlan
  rw [h1]
  dsimp only
  rw [if_pos (indexOfJS_eq_neg_one_of_not_mem _ _ h2)]

/-- Claim C7 (witness). -/
theorem resetPlan_invalid_term_defaults_witness :
    resetPlan stateWinter =
      { stateWinter with semesterPlans := defaultThreePlans, error := none } :=
  resetPlan_invalid_term_defaults stateWinter winterInfo rfl (by decide)

/-- The prerequisite-availability loop collects exactly the courses of
the semesters strictly before the first occurrence of the target
semester name. -/
theorem previousSemestersCourses_eq_take (plans : List SemesterPlan) (semester : String) :
    ∀ i : Nat, findIndexJS (fun p => p.semester = semester) plans = some i →
      previousSemestersCourses plans semester =
        ((plans.take i).map (fun p => p.courses)).flatten := by
  induction plans with
  | nil => intro i h; simp [findIndexJS] at h
  | cons p rest ih =>
    intro i h
    by_cases hp : p.semester = semester
    · have h0 : i = 0 := by simp [findIndexJS, hp] at h; omega
      subst h0
      simp [previousSemestersCourses, hp]
    · simp only [findIndexJS, hp, decide_eq_true_eq, if_neg, decide_False] at h
      rcases Option.map_eq_some'.mp h with ⟨j, hj, hij⟩
      subst hij
      simp [previousSemestersCourses, hp, ih j hj]

/-- Claim C2: the set of courses counted as available for the
prerequisite check of `addCourse` is exactly the courses placed in
semesters whose index is strictly less than the target's; concretely,
with `A` only in `S1`, placing `B` (prerequisite `A`) into `S1` fails
with the prerequisites-unmet error, while placing it into `S2`
succeeds. -/
theorem prereq_available_set_strictly_before :
    (∀ (plans : List SemesterPlan) (semester : String) (i : Nat),
        findIndexJS (fun p => p.semester = semester) plans = some i →
        previousSemestersCourses plans semester =
          ((plans.take i).map (fun p => p.courses)).flatten) ∧
    (addCourse stateAB "S1" courseB).error = some "Prerequisites for B are not satisfied" ∧
    (addCourse stateAB "S1" courseB).semesterPlans = stateAB.semesterPlans ∧
    (addCourse stateAB "S2" courseB).error = none ∧
    (addCourse stateAB "S2" courseB).semesterPlans =
      [⟨"S1", SemesterType.regular, [courseA], 3⟩,
       ⟨"S2", SemesterType.regular, [courseB], 3⟩] :=
  ⟨fun plans semester i h => previousSemestersCourses_eq_take plans semester i h,
    by decide, by decide, by decide, by decide⟩

/-- Claim C2 (witness). -/
theorem prereq_available_set_strictly_before_witness :
    findIndexJS (fun p => p.semester = "S2") stateAB.semesterPlans = some 1 ∧
    previousSemestersCourses stateAB.semesterPlans "S2" =
      ((stateAB.semesterPlans.take 1).map (fun p => p.courses)).flatten :=
  ⟨by decide,
    prereq_available_set_strictly_before.1 stateAB.semesterPlans "S2" 1 (by decide)⟩

theorem append_data_head (a b : String) (c : Char) (h : a.data.head? = some c) :
    (a ++ b).data.head? = some c := by
  rw [String.data_append, List.head?_append, h]
  rfl

theorem ne_of_data_head (s t : String) (c d : Char) (hs : s.data.head? = some c)
    (ht : t.data.head? = some d) (hcd : c ≠ d) : s ≠ t := by
  intro h
  subst h
  rw [hs] at ht
  exact hcd (Option.some.inj ht)

/-- The credit-limit error message and the prerequisites error message
can never coincide (their first characters differ). -/
theorem credit_msg_ne_prereq_msg (code1 sem code2 : String) :
    "Adding " ++ code1 ++ " would exceed the credit limit for " ++ sem ≠
      "Prerequisites for " ++ code2 ++ " are not satisfied" := by
  apply ne_of_data_head _ _ 'A' 'P'
  · exact append_data_head _ _ _ (append_data_head _ _ _ (append_data_head _ _ _ rfl))
  · exact append_data_head _ _ _ (append_data_head _ _ _ rfl)
  · decide

/-- With the duplicate checks clean, `addCourse` reports the
credit-limit error exactly when the semester's credit total plus the
course's parsed credits strictly exceeds the cap of the semester's
type. -/
theorem credit_limit_iff (st : DegreePlanState) (semester : String) (course : Course)
    (plan : SemesterPlan)
    (h : findPlan st.semesterPlans semester = some plan)
    (h1 : dupInSemester plan course = false)
    (h2 : existsInOtherSemester st.semesterPlans semester course = false) :
    (addCourse st semester course).error =
        some ("Adding " ++ course.course_code ++ " would exceed the credit limit for " ++ semester)
      ↔ plan.credits + parseIntJS course.credits >
          (if plan.type = SemesterType.summer then SUMMER_SEMESTER_CREDIT_LIMIT
           else REGULAR_SEMESTER_CREDIT_LIMIT) := by
  unfold addCourse
  rw [h]
  dsimp only
  rw [if_neg (by simp [h1]), if_neg (by simp [h2])]
  by_cases h3 : plan.credits + parseIntJS course.credits >
      (if plan.type = SemesterType.summer then (10 : Int) else 22)
  · rw [if_pos h3]
    refine iff_of_true rfl ?_
    simpa [SUMMER_SEMESTER_CREDIT_LIMIT, REGULAR_SEMESTER_CREDIT_LIMIT] using h3
  · rw [if_neg h3]
    refine iff_of_false ?_ ?_
    · split_ifs with h4 h5 h6
      all_goals intro hx
      all_goals first
        | exact hx.elim
        | exact Ne.symm (credit_msg_ne_prereq_msg _ _ _) (Option.some.inj hx)
    · simpa [SUMMER_SEMESTER_CREDIT_LIMIT, REGULAR_SEMESTER_CREDIT_LIMIT] using h3

/-- Claim C5: the credit-limit rejection happens exactly when the new
total strictly exceeds the cap (22 regular, 10 summer); landing exactly
on the cap is accepted, one credit over is rejected — shown in general
and at both boundary scenarios. -/
theorem credit_cap_check :
    (∀ (st : DegreePlanState) (semester : String) (course : Course) (plan : SemesterPlan),
        findPlan st.semesterPlans semester = some plan →
        dupInSemester plan course = false →
        existsInOtherSemester st.semesterPlans semester course = false →
        ((addCourse st semester course).error =
            some ("Adding " ++ course.course_code ++
              " would exceed the credit limit for " ++ semester)
          ↔ plan.credits + parseIntJS course.credits >
              (if plan.type = SemesterType.summer then SUMMER_SEMESTER_CREDIT_LIMIT
               else REGULAR_SEMESTER_CREDIT_LIMIT))) ∧
    REGULAR_SEMESTER_CREDIT_LIMIT = 22 ∧ SUMMER_SEMESTER_CREDIT_LIMIT = 10 ∧
    (addCourse stateNearCap "R" courseC).error = none ∧
    ((addCourse stateNearCap "R" courseC).semesterPlans.getD 0 default).credits = 22 ∧
    (addCourse stateOverCap "R" courseC).error =
      some "Adding C would exceed the credit limit for R" ∧
    (addCourse stateOverCap "R" courseC).semesterPlans = stateOverCap.semesterPlans ∧
    (addCourse stateNearCap "Su" courseC).error = none ∧
    ((addCourse stateNearCap "Su" courseC).semesterPlans.getD 1 default).credits = 10 ∧
    (addCourse stateOverCap "Su" courseC).error =
      some "Adding C would exceed the credit limit for Su" :=
  ⟨credit_limit_iff, rfl, rfl, by decide, by decide, by decide, by decide, by decide,
    by decide, by decide⟩

/-- Claim C5 (witness). -/
theorem credit_cap_check_witness :
    findPlan stateOverCap.semesterPlans "R" = some ⟨"R", SemesterType.regular, [], 20⟩ ∧
    ((addCourse stateOverCap "R" courseC).error =
        some ("Adding " ++ courseC.course_code ++
          " would exceed the credit limit for " ++ "R")
      ↔ (20 : Int) + parseIntJS courseC.credits >
          (if SemesterType.regular = SemesterType.summer then SUMMER_SEMESTER_CREDIT_LIMIT
           else REGULAR_SEMESTER_CREDIT_LIMIT)) :=
  ⟨by decide,
    credit_cap_check.1 stateOverCap "R" courseC ⟨"R", SemesterType.regular, [], 20⟩
      (by decide) (by decide) (by decide)⟩

/-- Claim C1 (counterexample): the claim's "only when all four pass does
it mutate" fails.  A course coded `CSC 2302` whose recorded prerequisite
(`MTH 9999`) is satisfied nowhere is nevertheless appended to
Spring 2025 — because `CSC 1401` sits in an earlier semester, the
special case skips the prerequisite rule entirely. -/
theorem addCourse_csc2302_counterexample :
    prerequisitesSatisfied (previousSemestersCourses stateCsc.semesterPlans "Spring 2025")
      csc2302Unmet.prerequisites = false ∧
    (addCourse stateCsc "Spring 2025" csc2302Unmet).error = none ∧
    (addCourse stateCsc "Spring 2025" csc2302Unmet).semesterPlans ≠ stateCsc.semesterPlans ∧
    ((addCourse stateCsc "Spring 2025" csc2302Unmet).semesterPlans.getD 1 default).courses =
      [csc2302Unmet] :=
  ⟨by decide, by decide, by decide, by decide⟩

/-- Claim C1 (amended): on a ledger containing the target semester,
`addCourse` checks, in order, duplicate-in-semester,
duplicate-elsewhere, credit-limit, and then prerequisites — except that
a course coded exactly `CSC 2302` skips the prerequisite rule whenever a
course normalizing to `CSC1401` is placed strictly earlier.  The first
failing applicable rule's message is reported; exactly when every
applicable rule passes, the course is appended to the target semester
and its credit total raised by the course's parsed credits. -/
theorem addCourse_ordered_checks (st : DegreePlanState) (semester : String)
    (course : Course) (plan : SemesterPlan)
    (h : findPlan st.semesterPlans semester = some plan) :
    addCourse st semester course =
      (if dupInSemester plan course then
        { st with error := some (course.course_code ++ " is already in " ++ semester) }
       else if existsInOtherSemester st.semesterPlans semester course then
        { st with error := some (course.course_code ++ " is already in another semester") }
       else if plan.credits + parseIntJS course.credits >
           (if plan.type = SemesterType.summer then SUMMER_SEMESTER_CREDIT_LIMIT
            else REGULAR_SEMESTER_CREDIT_LIMIT) then
        { st with error := some ("Adding " ++ course.course_code ++
            " would exceed the credit limit for " ++ semester) }
       else if csc2302Bypass course (previousSemestersCourses st.semesterPlans semester)
           || prerequisitesSatisfied (previousSemestersCourses st.semesterPlans semester)
                course.prerequisites then
        { st with semesterPlans := appendCourse st.semesterPlans semester course,
                  error := none }
       else
        { st with error := some ("Prerequisites for " ++ course.course_code ++
            " are not satisfied") }) := by
  unfold addCourse
  rw [h]
  dsimp only
  simp only [SUMMER_SEMESTER_CREDIT_LIMIT, REGULAR_SEMESTER_CREDIT_LIMIT]
  by_cases h1 : dupInSemester plan course
  · rw [if_pos h1, if_pos h1]
  · rw [if_neg h1, if_neg h1]
    by_cases h2 : existsInOtherSemester st.semesterPlans semester course
    · rw [if_pos h2, if_pos h2]
    · rw [if_neg h2, if_neg h2]
      by_cases h3 : plan.credits + parseIntJS course.credits >
          (if plan.type = SemesterType.summer then (10 : Int) else 22)
      · rw [if_pos h3, if_pos h3]
      · rw [if_neg h3, if_neg h3]
        cases hpre : course.prerequisites with
        | nil =>
          simp [prerequisitesSatisfied]
        | cons g gs =>
          by_cases h4 : csc2302Bypass course (previousSemestersCourses st.semesterPlans semester)
          · simp [h4]
          · by_cases h5 : prerequisitesSatisfied
                (previousSemestersCourses st.semesterPlans semester) (g :: gs)
            · simp [h4, h5]
            · simp [h4, h5]

/-- Claim C1 (witness). -/
theorem addCourse_ordered_checks_witness :
    findPlan stateAB.semesterPlans "S2" = some ⟨"S2", SemesterType.regular, [], 0⟩ ∧
    addCourse stateAB "S2" courseB =
      { stateAB with semesterPlans := appendCourse stateAB.semesterPlans "S2" courseB,
                     error := none } := by
  have h := addCourse_ordered_checks stateAB "S2" courseB
    ⟨"S2", SemesterType.regular, [], 0⟩ (by decide)
  exact ⟨by decide, h.trans (by decide)⟩

/-- Claim C6 (counterexample): the duplicate checks do *not* compare
normalized codes.  `csc-1401` normalizes to the same code as the placed
`CSC 1401`, yet adding it to the very semester holding `CSC 1401`
passes the duplicate-in-semester check and both spellings end up placed
together. -/
theorem raw_duplicate_check_counterexample :
    normalizeCourseCode csc1401Hyphen.course_code = normalizeCourseCode csc1401.course_code ∧
    csc1401Hyphen.course_code ≠ csc1401.course_code ∧
    (addCourse stateCsc "Fall 2024" csc1401Hyphen).error = none ∧
    ((addCourse stateCsc "Fall 2024" csc1401Hyphen).semesterPlans.getD 0 default).courses =
      [csc1401, csc1401Hyphen] :=
  ⟨by decide, by decide, by decide, by decide⟩

/-- Claim C6 (amended): only the prerequisite-availability check of
`addCourse` (and the `CSC 2302` special case) compares normalized codes
— any spelling normalizing to a placed course's code satisfies a
prerequisite on it.  The duplicate-in-semester check, the
duplicate-elsewhere check, and `removeCourse`'s dependent scan compare
raw strings: spellings that normalize alike but differ raw slip past
all three. -/
theorem normalization_only_in_prereq_check :
    (∀ (prev : List Course) (c : Course) (t v : String),
        c ∈ prev → normalizeCourseCode c.course_code = normalizeCourseCode v →
        prerequisitesSatisfied prev [[⟨t, v⟩]] = true) ∧
    normalizeCourseCode csc1401Hyphen.course_code = normalizeCourseCode csc1401.course_code ∧
    csc1401Hyphen.course_code ≠ csc1401.course_code ∧
    dupInSemester ⟨"Fall 2024", SemesterType.regular, [csc1401], 4⟩ csc1401Hyphen = false ∧
    existsInOtherSemester stateCsc.semesterPlans "Spring 2025" csc1401Hyphen = false ∧
    findDependent "CSC 1401"
      [⟨"S2", SemesterType.regular,
        [⟨"X", "Course X", "3", [[⟨"course", "CSC1401"⟩]], []⟩], 3⟩] = none ∧
    normalizeCourseCode "CSC1401" = normalizeCourseCode "CSC 1401" := by
  refine ⟨?_, by decide, by decide, by decide, by decide, by decide, by decide⟩
  intro prev c t v hmem hnorm
  simp only [prerequisitesSatisfied, prereqGroupSatisfied, List.all_cons, List.all_nil,
    Bool.and_true, List.any_cons, List.any_nil, Bool.or_false, List.any_eq_true,
    decide_eq_true_eq]
  have : prev.any (fun x => decide (normalizeCourseCode x.course_code =
      normalizeCourseCode v)) = true :=
    List.any_eq_true.mpr ⟨c, hmem, decide_eq_true hnorm⟩
  simp [this]

/-- Claim C6 (witness). -/
theorem normalization_only_in_prereq_check_witness :
    prerequisitesSatisfied [csc1401] [[⟨"course", "csc-1401"⟩]] = true :=
  normalization_only_in_prereq_check.1 [csc1401] csc1401 "course" "csc-1401"
    (by simp) (by decide)

/-- Claim C3 (counterexample): with `A` and `A2` both placed in `S1` and
a later `B` requiring the OR-group `A` or `A2`, the group would remain
satisfied by the still-placed `A2` after removing `A` — the claim says
removal succeeds — yet `removeCourse` blocks it naming `B`. -/
theorem remove_or_alternative_counterexample :
    prereqGroupSatisfied [courseA2] [⟨"course", "A"⟩, ⟨"course", "A2"⟩] = true ∧
    (removeCourse stateOr "S1" "A").error =
      some "Cannot remove A because it's a prerequisite for B" ∧
    (removeCourse stateOr "S1" "A").semesterPlans = stateOr.semesterPlans :=
  ⟨by decide, by decide, by decide⟩

/-- The inner dependent scan is the first course of the list whose
prerequisite groups mention the code raw. -/
theorem findDependentInCourses_eq (courseCode : String) (cs : List Course) :
    findDependentInCourses courseCode cs =
      (cs.find? (fun c => c.prerequisites.any (fun g =>
        g.any (fun pr => pr.value = courseCode)))).map (fun c => c.course_code) := by
  induction cs with
  | nil => rfl
  | cons c rest ih =>
    by_cases hc : c.prerequisites.any (fun g => g.any (fun pr => pr.value = courseCode))
    · simp [findDependentInCourses, List.find?_cons_of_pos, hc]
    · simp only [findDependentInCourses, hc, if_neg, Bool.false_eq_true, ite_false]
      rw [List.find?_cons_of_neg _ (by simpa using hc)]
      exact ih

/-- The two-level dependent scan equals a first-match search over the
flattened course lists of the later semesters. -/
theorem findDependent_eq_flatten (courseCode : String) (plans : List SemesterPlan) :
    findDependent courseCode plans =
      ((plans.map (fun p => p.courses)).flatten.find? (fun c => c.prerequisites.any (fun g =>
        g.any (fun pr => pr.value = courseCode)))).map (fun c => c.course_code) := by
  induction plans with
  | nil => rfl
  | cons p rest ih =>
    simp only [findDependent, findDependentInCourses_eq, List.map_cons, List.flatten_cons,
      List.find?_append]
    cases hX : p.courses.find? (fun c => c.prerequisites.any (fun g =>
        g.any (fun pr => pr.value = courseCode))) with
    | some dep => simp [hX]
    | none => simp [hX, ih]

/-- When the semester and the course are found, `removeCourse` blocks —
naming the first such course — exactly when some course of a strictly
later semester *mentions* the removed code raw in any prerequisite
group; otherwise it removes the course and decrements the credits. -/
theorem remove_blocking_scan_general (st : DegreePlanState) (semester courseCode : String)
    (i ci : Nat)
    (h1 : findIndexJS (fun p => p.semester = semester) st.semesterPlans = some i)
    (h2 : findIndexJS (fun c => c.course_code = courseCode)
      (st.semesterPlans.getD i default).courses = some ci) :
    removeCourse st semester courseCode =
      (match ((st.semesterPlans.drop (i + 1)).map (fun p => p.courses)).flatten.find?
          (fun c => c.prerequisites.any (fun g =>
            g.any (fun pr => pr.value = courseCode))) with
       | some dep =>
         { st with error := some ("Cannot remove " ++ courseCode ++
             " because it's a prerequisite for " ++ dep.course_code) }
       | none =>
         { st with
           semesterPlans := st.semesterPlans.set i
             { st.semesterPlans.getD i default with
               courses := (st.semesterPlans.getD i default).courses.filter
                 (fun c => c.course_code ≠ courseCode),
               credits := (st.semesterPlans.getD i default).credits -
                 parseIntJS (((st.semesterPlans.getD i default).courses.getD ci
                   default).credits) },
           error := none }) := by
  unfold removeCourse
  rw [h1]
  dsimp only
  rw [h2]
  dsimp only
  rw [findDependent_eq_flatten]
  cases hX : ((st.semesterPlans.drop (i + 1)).map (fun p => p.courses)).flatten.find?
      (fun c => c.prerequisites.any (fun g => g.any (fun pr => pr.value = courseCode))) with
  | some dep => rfl
  | none => rfl

/-- Claim C3 (amended): `removeCourse` blocks exactly when a course in a
strictly later semester mentions the removed code raw in any
prerequisite group — regardless of whether other placed alternatives
would keep the group satisfied — naming the first such course found;
otherwise it removes the course and decrements the semester's credit
total by the course's parsed credits.  The A/B scenario blocks naming
`B`, and succeeds after `B` is removed first. -/
theorem remove_blocking_raw_scan :
    (∀ (st : DegreePlanState) (semester courseCode : String) (i ci : Nat),
        findIndexJS (fun p => p.semester = semester) st.semesterPlans = some i →
        findIndexJS (fun c => c.course_code = courseCode)
          (st.semesterPlans.getD i default).courses = some ci →
        removeCourse st semester courseCode =
          (match ((st.semesterPlans.drop (i + 1)).map (fun p => p.courses)).flatten.find?
              (fun c => c.prerequisites.any (fun g =>
                g.any (fun pr => pr.value = courseCode))) with
           | some dep =>
             { st with error := some ("Cannot remove " ++ courseCode ++
                 " because it's a prerequisite for " ++ dep.course_code) }
           | none =>
             { st with
               semesterPlans := st.semesterPlans.set i
                 { st.semesterPlans.getD i default with
                   courses := (st.semesterPlans.getD i default).courses.filter
                     (fun c => c.course_code ≠ courseCode),
                   credits := (st.semesterPlans.getD i default).credits -
                     parseIntJS (((st.semesterPlans.getD i default).courses.getD ci
                       default).credits) },
               error := none })) ∧
    (removeCourse stateABPlaced "S1" "A").error =
      some "Cannot remove A because it's a prerequisite for B" ∧
    (removeCourse stateABPlaced "S1" "A").semesterPlans = stateABPlaced.semesterPlans ∧
    (removeCourse (removeCourse stateABPlaced "S2" "B") "S1" "A").error = none ∧
    (removeCourse (removeCourse stateABPlaced "S2" "B") "S1" "A").semesterPlans =
      [⟨"S1", SemesterType.regular, [], 0⟩, ⟨"S2", SemesterType.regular, [], 0⟩] :=
  ⟨remove_blocking_scan_general, by decide, by decide, by decide, by decide⟩

/-- Claim C3 (witness). -/
theorem remove_blocking_raw_scan_witness :
    removeCourse stateABPlaced "S1" "A" =
      { stateABPlaced with
        error := some "Cannot remove A because it's a prerequisite for B" } := by
  have h := remove_blocking_raw_scan.1 stateABPlaced "S1" "A" 0 0 (by decide) (by decide)
  exact h.trans (by decide)

/-- Claim C8: the plan generator is deterministic.  `generateDegreePlan`
is a pure function of the requirements and options — the source draws on
no randomness, clock, or unordered iteration (JavaScript `Set`/`Map`
iterate in insertion order and `sort` is stable), and its embedding is a
total function — so two invocations on identical inputs produce
identical semester sequences, course lists and credit totals. -/
theorem generator_deterministic (requirements : MajorRequirements)
    (options : DegreePlanOptions) :
    generateDegreePlan requirements options = generateDegreePlan requirements options ∧
    (generateDegreePlan requirements options).map (fun s => s.semester) =
      (generateDegreePlan requirements options).map (fun s => s.semester) ∧
    (generateDegreePlan requirements options).map (fun s => s.courses) =
      (generateDegreePlan requirements options).map (fun s => s.courses) ∧
    (generateDegreePlan requirements options).map (fun s => s.credits) =
      (generateDegreePlan requirements options).map (fun s => s.credits) :=
  ⟨rfl, rfl, rfl, rfl⟩



theorem map_noop {α : Type} (f : α → α) (l : List α) (h : ∀ a ∈ l, f a = a) :
    l.map f = l := by
  induction l with
  | nil => rfl
  | cons a as ih =>
    simp only [List.map_cons, h a (List.mem_cons_self a as), List.cons.injEq, true_and]
    exact ih (fun x hx => h x (List.mem_cons_of_mem a hx))

theorem find?_decomp {α : Type} (p : α → Bool) (l : List α) (a : α)
    (h : l.find? p = some a) :
    ∃ l1 l2, l = l1 ++ a :: l2 ∧ (∀ x ∈ l1, p x = false) ∧ p a = true := by
  induction l with
  | nil => simp [List.find?] at h
  | cons b bs ih =>
    by_cases hb : p b
    · rw [List.find?_cons_of_pos _ hb] at h
      obtain rfl := Option.some.inj h
      exact ⟨[], bs, rfl, by simp, hb⟩
    · rw [List.find?_cons_of_neg _ hb] at h
      obtain ⟨l1, l2, rfl, h1, h2⟩ := ih h
      exact ⟨b :: l1, l2, rfl, by
        intro x hx
        rcases List.mem_cons.mp hx with rfl | hx'
        · exact Bool.eq_false_iff.mpr hb
        · exact h1 x hx', h2⟩

theorem findIndexJS_decomp {α : Type} (p : α → Bool) (l : List α) :
    ∀ i, findIndexJS p l = some i →
      ∃ a l1 l2, l = l1 ++ a :: l2 ∧ l1.length = i ∧ p a = true ∧
        ∀ x ∈ l1, p x = false := by
  induction l with
  | nil => intro i h; simp [findIndexJS] at h
  | cons b bs ih =>
    intro i h
    by_cases hb : p b
    · rw [show findIndexJS p (b :: bs) = some 0 by simp [findIndexJS, hb]] at h
      obtain rfl := Option.some.inj h
      exact ⟨b, [], bs, rfl, rfl, hb, by simp⟩
    · rw [show findIndexJS p (b :: bs) = (findIndexJS p bs).map (· + 1) by
        simp [findIndexJS, hb]] at h
      rcases Option.map_eq_some'.mp h with ⟨j, hj, hij⟩
      obtain ⟨a, l1, l2, rfl, hlen, hpa, hall⟩ := ih j hj
      refine ⟨a, b :: l1, l2, rfl, by simp only [List.length_cons, hlen, hij], hpa, ?_⟩
      intro x hx
      rcases List.mem_cons.mp hx with rfl | hx'
      · exact Bool.eq_false_iff.mpr hb
      · exact hall x hx'

theorem getD_append_middle {α : Type} [Inhabited α] (l1 l2 : List α) (a d : α) :
    (l1 ++ a :: l2).getD l1.length d = a := by
  induction l1 with
  | nil => rfl
  | cons b bs ih =>
    simp only [List.cons_append, List.length_cons, List.getD_cons_succ]
    exact ih

theorem set_append_middle {α : Type} (l1 l2 : List α) (a b : α) :
    (l1 ++ a :: l2).set l1.length b = l1 ++ b :: l2 := by
  induction l1 with
  | nil => rfl
  | cons c cs ih =>
    simp only [List.cons_append, List.length_cons, List.set_cons_succ]
    rw [ih]


theorem ledgerCodes_append (l1 l2 : List SemesterPlan) :
    ledgerCodes (l1 ++ l2) = ledgerCodes l1 ++ ledgerCodes l2 := by
  simp [ledgerCodes]

theorem ledgerCodes_cons (p : SemesterPlan) (l : List SemesterPlan) :
    ledgerCodes (p :: l) = p.courses.map (fun c => c.course_code) ++ ledgerCodes l := by
  simp [ledgerCodes]

theorem appendCourse_decomp (l1 l2 : List SemesterPlan) (plan : SemesterPlan)
    (semester : String) (course : Course)
    (hplan : plan.semester = semester)
    (hl1 : ∀ p ∈ l1, p.semester ≠ semester) (hl2 : ∀ p ∈ l2, p.semester ≠ semester) :
    appendCourse (l1 ++ plan :: l2) semester course =
      l1 ++ { plan with courses := plan.courses ++ [course],
                        credits := plan.credits + parseIntJS course.credits } :: l2 := by
  unfold appendCourse
  rw [List.map_append, List.map_cons]
  rw [map_noop _ l1 (fun p hp => by rw [if_neg (hl1 p hp)]),
    map_noop _ l2 (fun p hp => by rw [if_neg (hl2 p hp)]), if_pos hplan]

theorem sum_filter_remove (code : String) (l : List Course) :
    ∀ ci, (l.map (fun c => c.course_code)).Nodup →
      findIndexJS (fun c => c.course_code = code) l = some ci →
      ((l.filter (fun c => c.course_code ≠ code)).map (fun c => parseIntJS c.credits)).sum
        = (l.map (fun c => parseIntJS c.credits)).sum -
            parseIntJS ((l.getD ci default).credits) := by
  induction l with
  | nil => intro ci _ h; simp [findIndexJS] at h
  | cons a as ih =>
    intro ci hnd h
    by_cases ha : a.course_code = code
    · rw [show findIndexJS (fun c => c.course_code = code) (a :: as) = some 0 by
        simp [findIndexJS, ha]] at h
      obtain rfl := Option.some.inj h
      have hrest : ∀ x ∈ as, x.course_code ≠ code := by
        intro x hx
        have : a.course_code ∉ as.map (fun c => c.course_code) :=
          (List.nodup_cons.mp hnd).1
        intro hc
        exact this (by rw [← ha] at hc; exact hc ▸ List.mem_map_of_mem _ hx)
      rw [List.filter_cons_of_neg (by simpa using ha),
        List.filter_eq_self.mpr (fun x hx => by simpa using hrest x hx)]
      simp
    · rw [show findIndexJS (fun c => c.course_code = code) (a :: as) =
          (findIndexJS (fun c => c.course_code = code) as).map (· + 1) by
        simp [findIndexJS, ha]] at h
      rcases Option.map_eq_some'.mp h with ⟨j, hj, hij⟩
      subst hij
      rw [List.filter_cons_of_pos (by simpa using ha)]
      simp only [List.map_cons, List.sum_cons, List.getD_cons_succ]
      rw [ih j (List.nodup_cons.mp hnd).2 hj]
      omega


theorem nodup_insert_middle {α : Type} (A B C : List α) (x : α)
    (h : (A ++ (B ++ C)).Nodup) (hx : x ∉ A ++ (B ++ C)) :
    (A ++ ((B ++ [x]) ++ C)).Nodup := by
  have heq : A ++ ((B ++ [x]) ++ C) = (A ++ B) ++ x :: C := by
    simp [List.append_assoc]
  rw [heq, List.nodup_middle]
  refine List.nodup_cons.mpr ⟨?_, ?_⟩
  · simpa [List.append_assoc] using hx
  · simpa [List.append_assoc] using h

theorem mem_ledgerCodes (x : String) (l : List SemesterPlan) :
    x ∈ ledgerCodes l ↔ ∃ p ∈ l, x ∈ p.courses.map (fun c => c.course_code) := by
  simp [ledgerCodes, List.mem_flatten]

theorem addCourse_preserves_inv (st : DegreePlanState) (semester : String)
    (course : Course) (h : StrongInv st.semesterPlans) :
    StrongInv (addCourse st semester course).semesterPlans := by
  rcases addCourse_shape st semester course with ⟨_, heq⟩ | ⟨msg, heq⟩ |
    ⟨plan, hfind, hdup, hother, heq⟩
  · rw [heq]; exact h
  · rw [heq]; exact h
  · rw [heq]
    dsimp only
    obtain ⟨l1, l2, hsplit, hl1, hplanp⟩ := find?_decomp _ _ _ hfind
    have hplansem : plan.semester = semester := by simpa using hplanp
    have hl1' : ∀ p ∈ l1, p.semester ≠ semester := by
      intro p hp
      simpa using hl1 p hp
    obtain ⟨hnames, hcodes, hcred⟩ := h
    have hdupall : ∀ c ∈ plan.courses, c.course_code ≠ course.course_code := by
      unfold dupInSemester at hdup
      intro c hc
      simpa using List.any_eq_false.mp hdup c hc
    have hotherall : ∀ p ∈ st.semesterPlans, p.semester ≠ semester →
        ∀ c ∈ p.courses, c.course_code ≠ course.course_code := by
      intro p hp hpne c hc hcode
      have htrue : existsInOtherSemester st.semesterPlans semester course = true := by
        unfold existsInOtherSemester
        refine List.any_eq_true.mpr ⟨p, hp, ?_⟩
        simp only [Bool.and_eq_true, decide_eq_true_eq]
        exact ⟨hpne, List.any_eq_true.mpr ⟨c, hc, by simpa using hcode⟩⟩
      simp [hother] at htrue
    have hl2' : ∀ p ∈ l2, p.semester ≠ semester := by
      intro p hp heqsem
      have hmid : ((l1.map (fun q => q.semester)) ++ plan.semester ::
          (l2.map (fun q => q.semester))).Nodup := by
        rw [hsplit] at hnames
        simpa using hnames
      have hnotin := (List.nodup_cons.mp (List.nodup_middle.mp hmid)).1
      exact hnotin (List.mem_append.mpr (Or.inr
        (by rw [hplansem, ← heqsem]; exact List.mem_map_of_mem _ hp)))
    rw [hsplit, appendCourse_decomp l1 l2 plan semester course hplansem hl1' hl2']
    refine ⟨?_, ?_, ?_⟩
    · rw [hsplit] at hnames
      simpa using hnames
    · rw [hsplit] at hcodes
      simp only [ledgerCodes_append, ledgerCodes_cons, List.map_append, List.map_cons,
        List.map_nil] at hcodes ⊢
      apply nodup_insert_middle
      · exact hcodes
      · intro hmem
        rcases List.mem_append.mp hmem with hA | hBC
        · rcases (mem_ledgerCodes _ _).mp hA with ⟨p, hp, hcp⟩
          rcases List.mem_map.mp hcp with ⟨c, hc, hcc⟩
          exact hotherall p (by rw [hsplit]; exact List.mem_append_left _ hp)
            (hl1' p hp) c hc hcc
        · rcases List.mem_append.mp hBC with hB | hC
          · rcases List.mem_map.mp hB with ⟨c, hc, hcc⟩
            exact hdupall c hc hcc
          · rcases (mem_ledgerCodes _ _).mp hC with ⟨p, hp, hcp⟩
            rcases List.mem_map.mp hcp with ⟨c, hc, hcc⟩
            have hpmem : p ∈ st.semesterPlans := by
              rw [hsplit]
              exact List.mem_append_right _ (List.mem_cons_of_mem _ hp)
            exact hotherall p hpmem (hl2' p hp) c hc hcc
    · intro p hp
      rcases List.mem_append.mp hp with hp1 | hp2
      · exact hcred p (by rw [hsplit]; exact List.mem_append_left _ hp1)
      · have hplanmem : plan ∈ st.semesterPlans := by
          rw [hsplit]
          exact List.mem_append_right _ (List.mem_cons_self _ _)
        rcases List.mem_cons.mp hp2 with rfl | hp3
        · dsimp only
          rw [hcred plan hplanmem]
          simp
        · have hpmem : p ∈ st.semesterPlans := by
            rw [hsplit]
            exact List.mem_append_right _ (List.mem_cons_of_mem _ hp3)
          exact hcred p hpmem
theorem removeCourse_preserves_inv (st : DegreePlanState) (semester courseCode : String)
    (h : StrongInv st.semesterPlans) :
    StrongInv (removeCourse st semester courseCode).semesterPlans := by
  rcases removeCourse_shape st semester courseCode with heq | ⟨msg, heq⟩ |
    ⟨i, ci, h1, h2, heq⟩
  · rw [heq]; exact h
  · rw [heq]; exact h
  · rw [heq]
    dsimp only
    obtain ⟨q, L1, L2, hsplit, hlen, hq, hall⟩ := findIndexJS_decomp _ _ i h1
    have hgetD : st.semesterPlans.getD i default = q := by
      rw [hsplit, ← hlen]
      exact getD_append_middle L1 L2 q default
    obtain ⟨hnames, hcodes, hcred⟩ := h
    have hqmem : q ∈ st.semesterPlans := by
      rw [hsplit]
      exact List.mem_append_right _ (List.mem_cons_self _ _)
    have h2' : findIndexJS (fun c => c.course_code = courseCode) q.courses = some ci := by
      rw [hgetD] at h2
      exact h2
    have hqnodup : (q.courses.map (fun c => c.course_code)).Nodup := by
      rw [hsplit] at hcodes
      simp only [ledgerCodes_append, ledgerCodes_cons] at hcodes
      exact (hcodes.of_append_right).of_append_left
    rw [hgetD, hsplit, ← hlen, set_append_middle]
    refine ⟨?_, ?_, ?_⟩
    · rw [hsplit] at hnames
      simpa using hnames
    · rw [hsplit] at hcodes
      simp only [ledgerCodes_append, ledgerCodes_cons] at hcodes ⊢
      refine List.Nodup.sublist ?_ hcodes
      refine List.Sublist.append_left ?_ _
      refine List.Sublist.append_right ?_ _
      exact (List.filter_sublist _).map _
    · intro p hp
      rcases List.mem_append.mp hp with hp1 | hp2
      · have hpmem : p ∈ st.semesterPlans := by
          rw [hsplit]
          exact List.mem_append_left _ hp1
        exact hcred p hpmem
      · rcases List.mem_cons.mp hp2 with rfl | hp3
        · dsimp only
          rw [sum_filter_remove courseCode q.courses ci hqnodup h2', hcred q hqmem]
        · have hpmem : p ∈ st.semesterPlans := by
            rw [hsplit]
            exact List.mem_append_right _ (List.mem_cons_of_mem _ hp3)
          exact hcred p hpmem
theorem runOps_preserves_inv (ops : List PlanOp) :
    ∀ st : DegreePlanState, StrongInv st.semesterPlans →
      StrongInv (runOps st ops).semesterPlans := by
  induction ops with
  | nil => intro st h; exact h
  | cons op rest ih =>
    intro st h
    refine ih (applyOp st op) ?_
    cases op with
    | add s c => exact addCourse_preserves_inv st s c h
    | remove s c => exact removeCourse_preserves_inv st s c h

theorem ledgerCodes_eq_nil : ∀ plans : List SemesterPlan,
    (∀ p ∈ plans, p.courses = []) → ledgerCodes plans = [] := by
  intro plans
  induction plans with
  | nil => intro _; rfl
  | cons p rest ih =>
    intro hempty
    rw [ledgerCodes_cons, hempty p (List.mem_cons_self _ _),
      ih (fun x hx => hempty x (List.mem_cons_of_mem _ hx))]
    rfl

theorem StrongInv_of_empty (plans : List SemesterPlan)
    (hnames : (plans.map (fun p => p.semester)).Nodup)
    (hempty : ∀ p ∈ plans, p.courses = [] ∧ p.credits = 0) : StrongInv plans := by
  refine ⟨hnames, ?_, ?_⟩
  · rw [ledgerCodes_eq_nil plans (fun p hp => (hempty p hp).1)]
    exact List.nodup_nil
  · intro p hp
    rw [(hempty p hp).1, (hempty p hp).2]
    rfl

/-- Claim C4: from any all-empty starting plan (with distinct semester
names, as every plan the app creates has), after any sequence of
`addCourse`/`removeCourse` operations, no course code appears in two
different semesters and every semester's stored credit total equals the
sum of the parsed credit values of its placed courses. -/
theorem ledger_invariants (start : DegreePlanState)
    (hnames : (start.semesterPlans.map (fun p => p.semester)).Nodup)
    (hempty : ∀ p ∈ start.semesterPlans, p.courses = [] ∧ p.credits = 0)
    (ops : List PlanOp) :
    semestersCodeDisjoint (runOps start ops).semesterPlans ∧
    creditsOk (runOps start ops).semesterPlans := by
  obtain ⟨_, hcodes, hcred⟩ :=
    runOps_preserves_inv ops start (StrongInv_of_empty _ hnames hempty)
  refine ⟨?_, hcred⟩
  unfold semestersCodeDisjoint
  unfold ledgerCodes at hcodes
  have hpair := (List.nodup_flatten.mp hcodes).2
  have hpair2 := List.pairwise_map.mp hpair
  refine hpair2.imp ?_
  intro a b hd code hca hcb
  exact hd hca hcb

/-- Claim C4 (witness). -/
theorem ledger_invariants_witness :
    semestersCodeDisjoint (runOps stateEmptyTwo
      [PlanOp.add "S1" courseA, PlanOp.add "S2" courseB,
       PlanOp.remove "S2" "B"]).semesterPlans ∧
    creditsOk (runOps stateEmptyTwo
      [PlanOp.add "S1" courseA, PlanOp.add "S2" courseB,
       PlanOp.remove "S2" "B"]).semesterPlans :=
  ledger_invariants stateEmptyTwo (by decide) (by decide)
    [PlanOp.add "S1" courseA, PlanOp.add "S2" courseB, PlanOp.remove "S2" "B"]

end AuiTrack

